import Mathlib

/-! ## Image sources of qt314wall (`source.h`, `source.cpp`)

A shallow embedding of the `Sources` namespace: `FileSource`, `FileListSource`,
`FolderSource`, `DropSource`, `WebSource`, `BooruSource` and `WallhavenSource`.

Conventions of the embedding.

* `QString` is `String`, `QStringList` is `List String`, `QByteArray` is a list of
  byte values.
* A member function becomes a function from the object (a structure holding the
  member variables) to the new object and the list of *effects* it performed, in
  program order: the signals it emitted and the requests it handed to the
  `QNetworkAccessManager`.
* Qt classes are modelled by small executable definitions that follow the Qt
  documentation (`QVariant`, `QJsonDocument`, `QUrl`, `QUrlQuery`, `QFileInfo`).
  The JSON decoder `QJsonDocument::fromJson` and the answers of the operating
  system to file operations are parameters.
* `QList::first()` asserts `!isEmpty()`; it is modelled as a partial operation
  returning `none` on the empty list, and a function that reaches it on an empty
  list returns `none`.
-/

namespace Sources

/-! ## Qt value types -/

/-- QByteArray: a sequence of bytes. -/
abbrev QByteArray := List Nat

/-- The bytes of an ASCII literal, as in the comparison `response == "[]"`. -/
def bytes (s : String) : QByteArray := s.data.map Char.toNat

/-- QVariant, restricted to the types a decoded JSON value can have
(`QJsonValue::toVariant`): invalid, null, `bool`, `double`, `QString`,
`QVariantList`, `QVariantMap`. A `double` is carried as the text that
`QVariant::toString` renders it to. -/
inductive QVariant where
  | invalid
  | nullptr
  | bool (b : Bool)
  | double (text : String)
  | string (s : String)
  | list (xs : List QVariant)
  | map (kvs : List (String × QVariant))

/-- QVariantList. -/
abbrev QVariantList := List QVariant

/-- QVariantMap, as an association list; the first entry of a key is its value. -/
abbrev QVariantMap := List (String × QVariant)

/-- `QMap::value(key, defaultValue)`. -/
def QVariantMap.valueOr (m : QVariantMap) (key : String) (defaultValue : QVariant) : QVariant :=
  match m.lookup key with
  | some v => v
  | none => defaultValue

/-- `QMap::value(key)`: the default-constructed (invalid) QVariant when absent. -/
def QVariantMap.value (m : QVariantMap) (key : String) : QVariant :=
  QVariantMap.valueOr m key QVariant.invalid

/-- `QVariant::toList()`: the list itself, or an empty list for any other type. -/
def QVariant.toList : QVariant → QVariantList
  | .list xs => xs
  | _ => []

/-- `QVariant::toMap()`: the map itself, or an empty map for any other type. -/
def QVariant.toMap : QVariant → QVariantMap
  | .map kvs => kvs
  | _ => []

/-- `QVariant::toString()`: defined for strings, booleans and numbers; an empty
string for every other type. -/
def QVariant.toString : QVariant → String
  | .string s => s
  | .bool true => "true"
  | .bool false => "false"
  | .double text => text
  | _ => ""

/-- `QList::first()`: requires a non-empty list (`Q_ASSERT(!isEmpty())`). -/
def QList.first {α : Type} (xs : List α) : Option α := xs.head?

/-- QJsonDocument: null (default constructed, or the result of a failed parse), or
a root array, or a root object. JSON values inside are carried as the QVariant
that `QJsonValue::toVariant` gives them. -/
inductive QJsonDocument where
  | null
  | array (xs : List QVariant)
  | object (kvs : List (String × QVariant))

/-- `QJsonDocument::isNull()`. -/
def QJsonDocument.isNull : QJsonDocument → Bool
  | .null => true
  | _ => false

/-- `QJsonDocument::isEmpty()`: the document contains no data (it is null, or its
root container has no element). -/
def QJsonDocument.isEmpty : QJsonDocument → Bool
  | .null => true
  | .array xs => xs.isEmpty
  | .object kvs => kvs.isEmpty

/-- `QJsonDocument::toVariant()`. -/
def QJsonDocument.toVariant : QJsonDocument → QVariant
  | .null => QVariant.invalid
  | .array xs => QVariant.list xs
  | .object kvs => QVariant.map kvs

/-- `QString::startsWith`. -/
def startsWith (s pre : String) : Bool := pre.data.isPrefixOf s.data

/-- `QChar::isSpace`. -/
def isSpace (c : Char) : Bool :=
  let n := c.toNat
  (9 ≤ n && n ≤ 13) || n == 32 || n == 0x85 || n == 0xA0 || n == 0x1680
    || (0x2000 ≤ n && n ≤ 0x200A) || n == 0x2028 || n == 0x2029 || n == 0x202F
    || n == 0x205F || n == 0x3000

/-- `QString::trimmed()`: whitespace removed from both ends. -/
def trimmed (s : String) : String :=
  String.mk ((s.data.dropWhile isSpace).reverse.dropWhile isSpace).reverse

/-- `QStringList::join(separator)`. -/
def join (xs : List String) (separator : String) : String := separator.intercalate xs

/-! ## QUrlQuery, QUrl, QFileInfo -/

/-- QUrlQuery: the ordered list of key/value items. The percent-recoding that
QUrlQuery applies inside one key or value is not modelled; it leaves `+`
untouched. -/
abbrev QUrlQuery := List (String × String)

/-- `QUrlQuery::addQueryItem`: appends the pair to the end of the query. -/
def QUrlQuery.addQueryItem (q : QUrlQuery) (key value : String) : QUrlQuery :=
  q ++ [(key, value)]

/-- `QUrlQuery::queryItemValue`: the value of the first item with that key, or an
empty string. -/
def QUrlQuery.queryItemValue (q : QUrlQuery) (key : String) : String :=
  match q.lookup key with
  | some v => v
  | none => ""

/-- `QUrlQuery::toString`: the items as `key=value`, separated by `&`. -/
def QUrlQuery.toString (q : QUrlQuery) : String :=
  "&".intercalate (q.map fun kv => kv.1 ++ "=" ++ kv.2)

/-- QUrl, as its components. User info and port are part of `host`;
percent-encoding and validation are not modelled. -/
structure QUrl where
  scheme : String
  host : String
  path : String
  query : QUrlQuery
  fragment : String
deriving DecidableEq, Repr

/-- Default-constructed `QUrl()`. -/
def QUrl.empty : QUrl := ⟨"", "", "", [], ""⟩

/-- `QUrl::isEmpty()`: the URL has no data. -/
def QUrl.isEmpty (u : QUrl) : Bool :=
  u.scheme.isEmpty && u.host.isEmpty && u.path.isEmpty && u.query.isEmpty && u.fragment.isEmpty

/-- The pieces of `cs` between occurrences of `sep`. -/
def splitOnChar (sep : Char) : List Char → List (List Char)
  | [] => [[]]
  | c :: cs =>
    match splitOnChar sep cs with
    | [] => [[]]
    | piece :: pieces => if c = sep then [] :: piece :: pieces else (c :: piece) :: pieces

/-- One `key=value` item of a query string. -/
def parseQueryItem (item : List Char) : String × String :=
  match item.span (fun c => c != '=') with
  | (k, _ :: v) => (String.mk k, String.mk v)
  | (k, []) => (String.mk k, "")

/-- The items of a query string. -/
def parseQuery (cs : List Char) : QUrlQuery :=
  if cs.isEmpty then [] else (splitOnChar '&' cs).map parseQueryItem

/-- Characters allowed in a scheme. -/
def isSchemeChar (c : Char) : Bool :=
  c.isAlphanum || c == '+' || c == '-' || c == '.'

/-- The scheme (lower-cased, as QUrl stores it) and what follows its colon. -/
def parseScheme (cs : List Char) : String × List Char :=
  match cs.span isSchemeChar with
  | (s, ':' :: rest) =>
    if s.head?.any Char.isAlpha then (String.mk (s.map Char.toLower), rest) else ("", cs)
  | _ => ("", cs)

/-- The authority after `//`, and what follows it. -/
def parseAuthority (cs : List Char) : String × List Char :=
  match cs with
  | '/' :: '/' :: rest =>
    let (a, r) := rest.span (fun c => c != '/' && c != '?' && c != '#')
    (String.mk a, r)
  | _ => ("", cs)

/-- `QUrl(const QString &)` and `QUrl::operator=(const QString &)`: the generic
URI split `scheme ":" "//" authority path "?" query "#" fragment`. -/
def QUrl.fromString (s : String) : QUrl :=
  let (scheme, r1) := parseScheme s.data
  let (host, r2) := parseAuthority r1
  let (path, r3) := r2.span (fun c => c != '?' && c != '#')
  let (query, r4) :=
    match r3 with
    | '?' :: r => r.span (fun c => c != '#')
    | _ => ([], r3)
  let fragment :=
    match r4 with
    | '#' :: r => r
    | _ => []
  ⟨scheme, host, String.mk path, parseQuery query, String.mk fragment⟩

/-- `QUrl::setScheme`. -/
def QUrl.setScheme (u : QUrl) (scheme : String) : QUrl := { u with scheme := scheme }

/-- `QUrl::setHost`. -/
def QUrl.setHost (u : QUrl) (host : String) : QUrl := { u with host := host }

/-- `QUrl::setPath`. -/
def QUrl.setPath (u : QUrl) (path : String) : QUrl := { u with path := path }

/-- `QUrl::setQuery(const QUrlQuery &)`. -/
def QUrl.setQuery (u : QUrl) (query : QUrlQuery) : QUrl := { u with query := query }

/-- `QUrl::fromUserInput`: an empty input gives `QUrl()`, an absolute path a
`file` URL, a string with a scheme the URL it spells, anything else is read as
an `http` address. -/
def QUrl.fromUserInput (userInput : String) : QUrl :=
  let trimmedString := trimmed userInput
  if trimmedString.isEmpty then QUrl.empty
  else if startsWith trimmedString "/" then ⟨"file", "", trimmedString, [], ""⟩
  else
    let url := QUrl.fromString trimmedString
    if !url.scheme.isEmpty then url else QUrl.fromString ("http://" ++ trimmedString)

/-- What follows the last occurrence of `sep`, if there is one. -/
def afterLast (sep : Char) : List Char → Option (List Char)
  | [] => none
  | c :: cs =>
    match afterLast sep cs with
    | some r => some r
    | none => if c = sep then some cs else none

/-- `QFileInfo(path).fileName()`: the path without its directories. -/
def QFileInfo.fileName (path : String) : List Char :=
  (afterLast '/' path.data).getD path.data

/-- `QFileInfo(path).suffix()`: the characters of the file name after its last
`.`, empty when it has none. -/
def QFileInfo.suffix (path : String) : String :=
  String.mk ((afterLast '.' (QFileInfo.fileName path)).getD [])

/-- `QUrl::fromLocalFile`. -/
def QUrl.fromLocalFile (localFile : String) : QUrl :=
  if localFile.isEmpty then QUrl.empty else ⟨"file", "", localFile, [], ""⟩

/-- `QVariant::toStringList()`: a list converts element by element, a string is a
one-element list, every other type gives an empty list. -/
def QVariant.toStringList : QVariant → List String
  | .list xs => xs.map QVariant.toString
  | .string s => [s]
  | _ => []

/-- `QList::value(i)`: the element at index `i`, or a default-constructed value
when `i` is out of bounds. -/
def QList.value (xs : List String) (i : Int) : String :=
  if 0 ≤ i then xs.getD i.toNat "" else ""

/-! ## Signals and network requests -/

/-- QNetworkRequest: the URL and the headers set on it. -/
structure QNetworkRequest where
  url : QUrl
  headers : List (String × String)
deriving DecidableEq, Repr

/-- Default-constructed `QNetworkRequest()`. -/
def QNetworkRequest.default : QNetworkRequest := ⟨QUrl.empty, []⟩

/-- `QNetworkRequest(const QUrl &)`. -/
def QNetworkRequest.ofUrl (url : QUrl) : QNetworkRequest := ⟨url, []⟩

/-- `QNetworkRequest::setHeader`: replaces the value of a known header. -/
def QNetworkRequest.setHeader (r : QNetworkRequest) (header value : String) : QNetworkRequest :=
  { r with headers := (header, value) :: r.headers.filter (fun h => h.1 != header) }

/-- `QNetworkRequest::header`. -/
def QNetworkRequest.header (r : QNetworkRequest) (header : String) : Option String :=
  r.headers.lookup header

/-- `QNetworkRequest::UserAgentHeader`. -/
def UserAgentHeader : String := "User-Agent"

/-- The slot connected to `QNetworkReply::finished` of a reply. -/
inductive Slot where
  | request_json
  | request_file (url : QUrl)
deriving DecidableEq, Repr

/-- What a member function does that is visible outside the object, in program
order: `emit nextFile(fileName)`, `emit trayMessage(message)`, and
`qnam.get(request)` with the slot connected to the reply. -/
inductive Effect where
  | nextFile (fileName : String)
  | trayMessage (message : String)
  | get (request : QNetworkRequest) (slot : Slot)
deriving DecidableEq, Repr

/-- The `nextFile` signals among the effects, as their arguments. -/
def nextFiles : List Effect → List String
  | [] => []
  | .nextFile f :: es => f :: nextFiles es
  | _ :: es => nextFiles es

/-- The `trayMessage` signals among the effects, as their arguments. -/
def trayMessages : List Effect → List String
  | [] => []
  | .trayMessage m :: es => m :: trayMessages es
  | _ :: es => trayMessages es

/-- The requests handed to the QNetworkAccessManager among the effects. -/
def requests : List Effect → List QNetworkRequest
  | [] => []
  | .get r _ :: es => r :: requests es
  | _ :: es => requests es

def msgNoJson : String := "JSON reply empty or null.\nWas there no images with that tag?"

def textNowhereUrl : String := "https://nowhere/page.json?a=b"

def userAgent : String :=
  "Mozilla/5.0 (X11; Linux x86_64)" ++ " AppleWebKit/999.99 (KHTML, like Gecko)" ++ " Qt314Wall/1.0"

/-! ## The file system -/

/-- What the file system shows to the reading sources: the text of the file that
`QFile::open(ReadOnly | Text)` opens at a path (`none` when the open fails), and
the absolute paths `QDir(path).entryInfoList(nameFilters, QDir::Files)` lists. -/
structure Disk where
  openText : String → Option String
  entryInfoList : String → List String → List String

/-- The regular files and directories that `WebSource::storeTempFile` changes. -/
structure FileSystem where
  read : String → Option QByteArray
  dirs : String → Bool

/-- The answers of the operating system to the three calls of
`WebSource::storeTempFile`: whether `QDir::mkpath` succeeds, whether
`QFile::open(WriteOnly | Truncate)` succeeds, and the return value of
`QFile::write` (the number of bytes written, negative on error). -/
structure FsReply where
  mkpath : Bool
  openOk : Bool
  written : Int
deriving DecidableEq, Repr

/-- `QDir::mkpath`: the directory exists afterwards when the call succeeds. -/
def FileSystem.mkpath (fs : FileSystem) (ok : Bool) (dir : String) : FileSystem :=
  if ok then { fs with dirs := fun d => d == dir || fs.dirs d } else fs

/-- `QFile::open(WriteOnly | Truncate)`: on success the file exists and is empty. -/
def FileSystem.openTruncate (fs : FileSystem) (ok : Bool) (path : String) : Option FileSystem :=
  if ok then some { fs with read := fun p => if p = path then some [] else fs.read p } else none

/-- `QFile::write(data)` on a freshly truncated file: returns the number of bytes
written, which the file then holds, or `-1` on error. -/
def FileSystem.write (fs : FileSystem) (result : Int) (path : String) (data : QByteArray) :
    Int × FileSystem :=
  if result < 0 then (-1, fs)
  else
    let n := min result.toNat data.length
    ((n : Int), { fs with read := fun p => if p = path then some (data.take n) else fs.read p })

/-! ## FileSource -/

structure FileSource where
  path_ : String
deriving DecidableEq, Repr

def FileSource.shortName (_ : FileSource) : String := "File"

def FileSource.path (s : FileSource) : String := s.path_

def FileSource.source (s : FileSource) : QUrl := QUrl.fromLocalFile s.path_

def FileSource.processPath (s : FileSource) : FileSource := s

def FileSource.field (s : FileSource) : QVariant := QVariant.string s.path_

def FileSource.setPath (s : FileSource) (filePath : String) : FileSource :=
  FileSource.processPath { s with path_ := filePath }

def FileSource.setField (s : FileSource) (field : QVariant) : FileSource :=
  s.setPath field.toString

def FileSource.fetchFile (s : FileSource) : List Effect :=
  [Effect.nextFile s.path_]

/-! ## FileListSource, FolderSource, DropSource -/

/-- The generator `std::mt19937`: the stream of its 32-bit outputs and the number
of outputs already drawn. -/
structure Mt19937 where
  out : Nat → Nat
  pos : Nat

/-- One call `rgen()`. -/
def Mt19937.next (g : Mt19937) : Nat × Mt19937 :=
  (g.out g.pos % 2 ^ 32, { g with pos := g.pos + 1 })

/-- The call `std::uniform_int_distribution<int>(a, b)(g)` for `a ≤ b`: a value of
the closed range `[a, b]` determined by the generator's output. -/
def uniform_int_distribution (a b : Int) (g : Mt19937) : Int × Mt19937 :=
  let (raw, g1) := g.next
  (a + (raw : Int) % (b - a + 1), g1)

structure FileListSource extends FileSource where
  files_ : List String
  rgen : Mt19937

def FileListSource.shortName (_ : FileListSource) : String := "FileList"

def FileListSource.files (s : FileListSource) : List String := s.files_

/-- The successive results of `f.readLine()` until `f.atEnd()`: each line with
its terminating newline. -/
def readLines : List Char → List (List Char)
  | [] => []
  | c :: cs =>
    if c = '\n' then [c] :: readLines cs
    else
      match readLines cs with
      | [] => [[c]]
      | l :: ls => (c :: l) :: ls

def FileListSource.processPath (disk : Disk) (s : FileListSource) : FileListSource :=
  match disk.openText s.path_ with
  | none => s
  | some text =>
    let cleared : List String := []
    let appendLine := fun (files : List String) (raw : List Char) =>
      let line := trimmed (String.mk raw)
      if !line.isEmpty then files ++ [line] else files
    { s with files_ := (readLines text.data).foldl appendLine cleared }

/-- `FileSource::setPath` on a FileListSource: the virtual `processPath` call
resolves to `FileListSource::processPath`. -/
def FileListSource.setPath (disk : Disk) (s : FileListSource) (filePath : String) :
    FileListSource :=
  FileListSource.processPath disk { s with path_ := filePath }

def FileListSource.setField (disk : Disk) (s : FileListSource) (field : QVariant) :
    FileListSource :=
  s.setPath disk field.toString

def FileListSource.fetchFile (s : FileListSource) : FileListSource × List Effect :=
  if s.files_.isEmpty then
    (s, FileSource.fetchFile s.toFileSource)
  else
    let (index, g) := uniform_int_distribution 0 ((s.files_.length : Int) - 1) s.rgen
    ({ s with rgen := g }, [Effect.nextFile (QList.value s.files_ index)])

/-- FolderSource has the members of FileListSource and overrides `processPath`. -/
abbrev FolderSource := FileListSource

def FolderSource.shortName (_ : FolderSource) : String := "Folder"

def FolderSource.processPath (disk : Disk) (s : FolderSource) : FolderSource :=
  let cleared : List String := []
  let entries := disk.entryInfoList s.path_ ["*.jpg", "*.png"]
  { s with files_ := entries.foldl (fun files i => files ++ [i]) cleared }

/-- `FileSource::setPath` on a FolderSource: the virtual `processPath` call
resolves to `FolderSource::processPath`. -/
def FolderSource.setPath (disk : Disk) (s : FolderSource) (filePath : String) : FolderSource :=
  FolderSource.processPath disk { s with path_ := filePath }

def FolderSource.setField (disk : Disk) (s : FolderSource) (field : QVariant) : FolderSource :=
  FolderSource.setPath disk s field.toString

/-- DropSource has the members of FileListSource; its `processPath` does nothing. -/
abbrev DropSource := FileListSource

def DropSource.shortName (_ : DropSource) : String := "Drop"

def DropSource.processPath (s : DropSource) : DropSource := s

def DropSource.setFiles (s : DropSource) (files : List String) : DropSource :=
  { s with files_ := files }

def DropSource.setField (s : DropSource) (field : QVariant) : DropSource :=
  { s with files_ := field.toStringList }

/-! ## WebSource -/

structure WebSource extends FileSource where
  workFolder : String
  source_ : QUrl
  title_ : String
  tags_ : List String
deriving DecidableEq, Repr

/-- The pure virtual functions of WebSource, supplied by the concrete class. -/
structure Resolver where
  buildRequestUrl : WebSource → QUrl
  jsonToImageUrl : QJsonDocument → QUrl → Option QUrl

/-- The constructor `WebSource::WebSource`. -/
def WebSource.init : WebSource :=
  { path_ := "", workFolder := "", source_ := QUrl.empty, title_ := "Unnamed web source",
    tags_ := [] }

def WebSource.shortName (_ : WebSource) : String := "WebSource"

def WebSource.source (w : WebSource) : QUrl := w.source_

def WebSource.title (w : WebSource) : String := w.title_

def WebSource.tags (w : WebSource) : List String := w.tags_

def WebSource.field (w : WebSource) : QVariant := QVariant.list (w.tags_.map QVariant.string)

def WebSource.setField (w : WebSource) (field : QVariant) : WebSource :=
  { w with tags_ := field.toStringList }

def WebSource.setWorkFolder (w : WebSource) (folder : String) : WebSource :=
  { w with workFolder := folder }

def WebSource.setTitle (w : WebSource) (name : String) : WebSource :=
  { w with title_ := name }

def WebSource.setTags (w : WebSource) (tags : List String) : WebSource :=
  { w with tags_ := tags }

/-- `FileSource::setPath` on a WebSource: `processPath` is not overridden. -/
def WebSource.setPath (w : WebSource) (filePath : String) : WebSource :=
  { w with toFileSource := w.toFileSource.setPath filePath }

set_option linter.unusedVariables false in
def WebSource.fetchFile (r : Resolver) (w : WebSource) : List Effect :=
  if w.workFolder.isEmpty then []
  else
    let url := r.buildRequestUrl w
    if url.isEmpty then []
    else
      let request := QNetworkRequest.default.setHeader UserAgentHeader userAgent
      [Effect.get (QNetworkRequest.ofUrl url) Slot.request_json]

/-- The slot `request_json`, run when the metadata reply has finished with body
`response`; `requestUrl` is `jsonReply->request().url()`. The result is `none`
when `jsonToImageUrl` fails. -/
def WebSource.request_json (fromJson : QByteArray → QJsonDocument) (r : Resolver)
    (w : WebSource) (response : QByteArray) (requestUrl : QUrl) : Option (List Effect) :=
  let json := fromJson response
  let emptyJson := json.isNull || json.isEmpty || response == bytes "[]"
    || response == bytes "\x7b\x7d"
  let resolved : Option QUrl :=
    if !emptyJson then r.jsonToImageUrl json requestUrl else some QUrl.empty
  match resolved with
  | none => none
  | some imageUrl =>
    if emptyJson || imageUrl.isEmpty then
      some (Effect.trayMessage msgNoJson :: FileSource.fetchFile w.toFileSource)
    else
      some [Effect.get (QNetworkRequest.ofUrl imageUrl) (Slot.request_file imageUrl)]

/-- The result is whether the file was stored, the object (with `path_` set) and
the file system afterwards. -/
def WebSource.storeTempFile (os : FsReply) (fs : FileSystem) (w : WebSource)
    (data : QByteArray) (ext : String) : Bool × WebSource × FileSystem :=
  let w1 : WebSource := { w with path_ := w.workFolder ++ "/dl/image." ++ ext }
  let fs1 := fs.mkpath os.mkpath (w1.workFolder ++ "/" ++ "dl")
  match fs1.openTruncate os.openOk w1.path_ with
  | none => (false, w1, fs1)
  | some fs2 =>
    let (n, fs3) := fs2.write os.written w1.path_ data
    if n < 0 then (false, w1, fs3) else (true, w1, fs3)

/-- The slot `request_file`, run when the image reply has finished with body
`body`; `url` is the resolved image URL captured at the request. -/
def WebSource.request_file (os : FsReply) (fs : FileSystem) (w : WebSource)
    (body : QByteArray) (url : QUrl) : WebSource × FileSystem × List Effect :=
  let w1 : WebSource := { w with source_ := url }
  let ext := QFileInfo.suffix url.path
  let (_, w2, fs1) := w1.storeTempFile os fs body ext
  (w2, fs1, FileSource.fetchFile w2.toFileSource)

/-! ## BooruSource -/

structure BooruSource extends WebSource where
  host : String
  apiPage : String
deriving DecidableEq, Repr

/-- The constructor `BooruSource::BooruSource`. -/
def BooruSource.init : BooruSource :=
  { toWebSource := WebSource.init.setTitle "Unnamed booru source", host := "nowhere",
    apiPage := "" }

def BooruSource.shortName (b : BooruSource) : String := b.host

def BooruSource.setHost (b : BooruSource) (hostname : String) : BooruSource :=
  { b with host := hostname }

def BooruSource.setApiPage (b : BooruSource) (uri : String) : BooruSource :=
  { b with apiPage := uri }

def BooruSource.buildRequestUrl (b : BooruSource) : QUrl :=
  let url := QUrl.fromString textNowhereUrl
  let url := url.setScheme "https"
  let url := url.setHost b.host
  let url := url.setPath b.apiPage
  let query : QUrlQuery := []
  let query := query.addQueryItem "limit" "1"
  let query := query.addQueryItem "random" "true"
  let query := query.addQueryItem "tags" (join b.tags_ "+")
  url.setQuery query

/-- The result is `none` when `first()` is called on an empty list. -/
def BooruSource.jsonToImageUrl (document : QJsonDocument) (documentUrl : QUrl) : Option QUrl :=
  match QList.first document.toVariant.toList with
  | none => none
  | some first =>
    let map := first.toMap
    let fileUrlString := (QVariantMap.value map "file_url").toString
    let imageUrl := documentUrl
    if startsWith fileUrlString "//" then
      some (QUrl.fromString (imageUrl.scheme ++ ":" ++ fileUrlString))
    else
      some (QUrl.fromString fileUrlString)

/-- The virtual functions as BooruSource overrides them. -/
def BooruSource.resolver (host apiPage : String) : Resolver :=
  { buildRequestUrl := fun w => BooruSource.buildRequestUrl ⟨w, host, apiPage⟩,
    jsonToImageUrl := BooruSource.jsonToImageUrl }

/-! ## WallhavenSource -/

/-- WallhavenSource adds no members to WebSource. -/
abbrev WallhavenSource := WebSource

/-- The constructor `WallhavenSource::WallhavenSource`. -/
def WallhavenSource.init : WallhavenSource := WebSource.init.setTitle "Wallhaven"

def WallhavenSource.shortName (_ : WallhavenSource) : String := "WallhavenSource"

def WallhavenSource.buildRequestUrl (w : WallhavenSource) : QUrl :=
  let url := QUrl.fromString textNowhereUrl
  let url := url.setScheme "https"
  let url := url.setHost "wallhaven.cc"
  let url := url.setPath "/api/v1/search"
  let query : QUrlQuery := []
  let query := query.addQueryItem "sorting" "random"
  let query := query.addQueryItem "q" (join w.tags_ "+")
  url.setQuery query

/-- The result is `none` when `first()` is called on an empty list. -/
def WallhavenSource.jsonToImageUrl (document : QJsonDocument) (_documentUrl : QUrl) :
    Option QUrl :=
  let map := document.toVariant.toMap
  let data := (QVariantMap.valueOr map "data" (QVariant.list [])).toList
  if data.isEmpty then some QUrl.empty
  else
    match QList.first data with
    | none => none
    | some first =>
      let firstImage := first.toMap
      let fileUrlString := (QVariantMap.value firstImage "path").toString
      some (QUrl.fromUserInput fileUrlString)

/-- The virtual functions as WallhavenSource overrides them. -/
def WallhavenSource.resolver : Resolver :=
  { buildRequestUrl := WallhavenSource.buildRequestUrl,
    jsonToImageUrl := WallhavenSource.jsonToImageUrl }

/-! ## A WebSource in its event loop -/

/-- An in-flight reply: the request it answers and the slot connected to its
`finished` signal. -/
structure Pending where
  request : QNetworkRequest
  slot : Slot
deriving DecidableEq, Repr

/-- A WebSource together with what surrounds it: the file system, the replies in
flight, and every effect performed so far (oldest first). -/
structure World where
  source : WebSource
  fs : FileSystem
  pending : List Pending
  emitted : List Effect

/-- The replies that the `get` effects put in flight. -/
def newPending : List Effect → List Pending
  | [] => []
  | .get request slot :: es => ⟨request, slot⟩ :: newPending es
  | _ :: es => newPending es

/-- Record the effects of one call. -/
def World.perform (wd : World) (effects : List Effect) : World :=
  { wd with pending := wd.pending ++ newPending effects, emitted := wd.emitted ++ effects }

/-- What can happen to a WebSource: the caller's calls, and the completion of the
`i`-th reply in flight with a response body (for an image reply, together with
the operating system's answers while the body is stored). -/
inductive Action where
  | setPath (filePath : String)
  | setTags (tags : List String)
  | setWorkFolder (folder : String)
  | fetchFile
  | jsonFinished (i : Nat) (response : QByteArray)
  | fileFinished (i : Nat) (body : QByteArray) (os : FsReply)
deriving DecidableEq, Repr

/-- One action. The result is `none` when the action is not possible (no such
reply in flight, or a reply connected to the other slot) and when the slot fails. -/
def World.step (fromJson : QByteArray → QJsonDocument) (r : Resolver) (wd : World) :
    Action → Option World
  | .setPath filePath => some { wd with source := wd.source.setPath filePath }
  | .setTags tags => some { wd with source := wd.source.setTags tags }
  | .setWorkFolder folder => some { wd with source := wd.source.setWorkFolder folder }
  | .fetchFile => some (wd.perform (wd.source.fetchFile r))
  | .jsonFinished i response =>
    match wd.pending.get? i with
    | some ⟨request, Slot.request_json⟩ =>
      match wd.source.request_json fromJson r response request.url with
      | none => none
      | some effects => some (World.perform { wd with pending := wd.pending.eraseIdx i } effects)
    | _ => none
  | .fileFinished i body os =>
    match wd.pending.get? i with
    | some ⟨_, Slot.request_file url⟩ =>
      let (source, fs, effects) := wd.source.request_file os wd.fs body url
      some (World.perform ⟨source, fs, wd.pending.eraseIdx i, wd.emitted⟩ effects)
    | _ => none

/-- A sequence of actions. -/
def World.run (fromJson : QByteArray → QJsonDocument) (r : Resolver) :
    World → List Action → Option World
  | wd, [] => some wd
  | wd, a :: as =>
    match wd.step fromJson r a with
    | none => none
    | some wd1 => World.run fromJson r wd1 as

/-- A freshly constructed source on an empty file system. -/
def World.init (source : WebSource) : World :=
  ⟨source, ⟨fun _ => none, fun _ => false⟩, [], []⟩

/-- The argument of the most recent `setPath` among the actions. -/
def lastSetPath : List Action → Option String
  | [] => none
  | .setPath filePath :: as =>
    match lastSetPath as with
    | some later => some later
    | none => some filePath
  | _ :: as => lastSetPath as

/-- The action is a call of `setPath`. -/
def Action.isSetPath : Action → Bool
  | .setPath _ => true
  | _ => false

/-- The action is the completion of an image reply. -/
def Action.isFileFinished : Action → Bool
  | .fileFinished _ _ _ => true
  | _ => false

/-! ## Test doubles -/

/-- A decoder for the bodies used in the worked examples below. It reads an
array holding one object with a `file_url` string, an object holding
`success: false`, the empty array and the empty object, and takes every other
body as invalid JSON. -/
def mockFromJson (response : QByteArray) : QJsonDocument :=
  if response = bytes "[\x7b\x22file_url\x22:\x22https://img.example.org/1.jpg\x22\x7d]" then
    QJsonDocument.array [QVariant.map [("file_url", QVariant.string "https://img.example.org/1.jpg")]]
  else if response = bytes "\x7b\x22success\x22:false\x7d" then
    QJsonDocument.object [("success", QVariant.bool false)]
  else if response = bytes "[]" then QJsonDocument.array []
  else if response = bytes "\x7b\x7d" then QJsonDocument.object []
  else QJsonDocument.null

/-- The body of the metadata reply in the worked examples: an array holding one
object whose `file_url` is `https://img.example.org/1.jpg`. -/
def mockJsonBody : QByteArray :=
  bytes "[\x7b\x22file_url\x22:\x22https://img.example.org/1.jpg\x22\x7d]"

/-- A ten-byte image body. -/
def mockImageBody : QByteArray := [137, 80, 78, 71, 13, 10, 26, 10, 0, 0]

/-- A file system on which `/tmp/work/dl/image.jpg` holds three older bytes. -/
def mockFileSystem : FileSystem :=
  { read := fun p => if p = "/tmp/work/dl/image.jpg" then some [1, 2, 3] else none,
    dirs := fun d => d == "/tmp/work" || d == "/tmp/work/dl" }

/-- A session of a BooruSource for `example.org`: the caller configures the local
path, the work folder and the tags and fetches; the metadata reply names an
image; the image reply arrives and is stored; the caller fetches again. -/
def mockSession : List Action :=
  [Action.setPath "/home/user/wall.png", Action.setWorkFolder "/tmp/work",
   Action.setTags ["cat", "cute"], Action.fetchFile, Action.jsonFinished 0 mockJsonBody,
   Action.fileFinished 0 mockImageBody ⟨true, true, 10⟩, Action.fetchFile]

/-- A session without a completed image download: the caller configures the
source and fetches, and the metadata reply is an empty array. -/
def mockShortSession : List Action :=
  [Action.setWorkFolder "/tmp/work", Action.setTags ["cat", "cute"], Action.fetchFile,
   Action.jsonFinished 0 (bytes "[]")]

/-- A generator whose outputs are 3, 10, 17, ... -/
def mockRgen : Mt19937 := ⟨fun i => 7 * i + 3, 0⟩

/-- A disk with one readable list file, `/lists/walls.txt`, of four lines (the
second blank, the third padded with blanks, the last without a newline), and one
directory, `/pictures`, holding two images. -/
def mockDisk : Disk :=
  { openText := fun path =>
      if path = "/lists/walls.txt" then some "/a.jpg\n\n  /b.png \n/c.jpg" else none,
    entryInfoList := fun path _ =>
      if path = "/pictures" then ["/pictures/1.jpg", "/pictures/2.png"] else [] }

/-- A freshly constructed FileListSource. -/
def mockFileList : FileListSource := { path_ := "", files_ := [], rgen := mockRgen }

/-- A WallhavenSource with the work folder `/tmp/work` and the single tag `cat`. -/
def mockWallhaven : WallhavenSource :=
  (WallhavenSource.init.setWorkFolder "/tmp/work").setTags ["cat"]

/-! ## Resolvers: parsing a response -/

theorem QVariantMap.value_of_lookup (m : QVariantMap) (key : String) (v : QVariant)
    (h : m.lookup key = some v) : QVariantMap.value m key = v := by
  simp [QVariantMap.value, QVariantMap.valueOr, h]

/-- BooruSource::jsonToImageUrl fails exactly on the documents that are not a
non-empty array. -/
theorem BooruSource.jsonToImageUrl_eq_none_iff (document : QJsonDocument) (documentUrl : QUrl) :
    BooruSource.jsonToImageUrl document documentUrl = none ↔ document.toVariant.toList = [] := by
  unfold BooruSource.jsonToImageUrl QList.first
  cases h : document.toVariant.toList with
  | nil => simp
  | cons first rest =>
    simp only [List.head?_cons]
    split <;> simp

/-- WallhavenSource::jsonToImageUrl returns on every document: `first()` is only
reached on a non-empty list. -/
theorem WallhavenSource.jsonToImageUrl_isSome (document : QJsonDocument) (documentUrl : QUrl) :
    (WallhavenSource.jsonToImageUrl document documentUrl).isSome = true := by
  unfold WallhavenSource.jsonToImageUrl QList.first
  cases h : (QVariantMap.valueOr document.toVariant.toMap "data" (QVariant.list [])).toList with
  | nil => simp [h]
  | cons first rest => simp [h]

/-- BooruSource::jsonToImageUrl returns the empty URL on an array whose first
element has no `file_url`. -/
theorem BooruSource.jsonToImageUrl_missing_field (first : QVariant) (rest : List QVariant)
    (documentUrl : QUrl) (h : first.toMap.lookup "file_url" = none) :
    BooruSource.jsonToImageUrl (QJsonDocument.array (first :: rest)) documentUrl
      = some QUrl.empty := by
  have hv : QVariantMap.value first.toMap "file_url" = QVariant.invalid := by
    simp [QVariantMap.value, QVariantMap.valueOr, h]
  have hs : startsWith "" "//" = false := by decide
  have hu : QUrl.fromString "" = QUrl.empty := by decide
  simp [BooruSource.jsonToImageUrl, QList.first, QJsonDocument.toVariant, QVariant.toList, hv,
    QVariant.toString, hs, hu]

/-- C2, at the failing input. The JSON object with the single member
`success: false` passes the `emptyJson` test of `request_json`, and
BooruSource::jsonToImageUrl then calls `first()` on an empty list: the slot fails.
WallhavenSource::jsonToImageUrl, which tests `data.isEmpty()` first, returns the
empty URL on the same document. -/
theorem jsonToImageUrl_on_object :
    BooruSource.jsonToImageUrl (QJsonDocument.object [("success", QVariant.bool false)])
        (QUrl.fromString textNowhereUrl) = none
      ∧ WebSource.request_json mockFromJson (BooruSource.resolver "nowhere" "/page.json")
          WebSource.init (bytes "\x7b\x22success\x22:false\x7d")
          (QUrl.fromString textNowhereUrl) = none
      ∧ WallhavenSource.jsonToImageUrl (QJsonDocument.object [("success", QVariant.bool false)])
          (QUrl.fromString textNowhereUrl) = some QUrl.empty := by
  refine ⟨by decide, by decide, by decide⟩

/-- C3. On an array whose first element is an object with the string member
`file_url` equal to `s`, BooruSource::jsonToImageUrl returns: when `s` starts
with `//`, the URL spelled by the scheme of the request URL, a colon, and `s`;
otherwise the URL spelled by `s`, whatever the request URL is. -/
theorem BooruSource.jsonToImageUrl_file_url (fields : QVariantMap) (rest : List QVariant)
    (s : String) (documentUrl : QUrl)
    (h : fields.lookup "file_url" = some (QVariant.string s)) :
    (startsWith s "//" = true →
        BooruSource.jsonToImageUrl (QJsonDocument.array (QVariant.map fields :: rest)) documentUrl
          = some (QUrl.fromString (documentUrl.scheme ++ ":" ++ s)))
      ∧ (startsWith s "//" = false → ∀ anyUrl : QUrl,
        BooruSource.jsonToImageUrl (QJsonDocument.array (QVariant.map fields :: rest)) anyUrl
          = some (QUrl.fromString s)) := by
  have hv : QVariantMap.value fields "file_url" = QVariant.string s :=
    QVariantMap.value_of_lookup fields "file_url" _ h
  constructor
  · intro hs
    simp [BooruSource.jsonToImageUrl, QList.first, QJsonDocument.toVariant, QVariant.toList,
      QVariant.toMap, hv, QVariant.toString, hs]
  · intro hs anyUrl
    simp [BooruSource.jsonToImageUrl, QList.first, QJsonDocument.toVariant, QVariant.toList,
      QVariant.toMap, hv, QVariant.toString, hs]

/-- C3 at the request `https://nowhere/page.json?a=b` with `file_url` equal to
`//cdn/x.jpg`: the result is `https://cdn/x.jpg`. -/
theorem BooruSource.jsonToImageUrl_file_url_witness :
    BooruSource.jsonToImageUrl
        (QJsonDocument.array [QVariant.map [("file_url", QVariant.string "//cdn/x.jpg")]])
        (QUrl.fromString "https://nowhere/page.json?a=b")
      = some (QUrl.fromString "https://cdn/x.jpg") :=
  ((BooruSource.jsonToImageUrl_file_url [("file_url", QVariant.string "//cdn/x.jpg")] []
      "//cdn/x.jpg" (QUrl.fromString "https://nowhere/page.json?a=b") rfl).1
      (by decide)).trans (by decide)

/-- WallhavenSource::jsonToImageUrl returns the empty URL when the document has
no non-empty `data` array, and when the first element of `data` has no `path`. -/
theorem WallhavenSource.jsonToImageUrl_empty (document : QJsonDocument) (documentUrl : QUrl)
    (h : (QVariantMap.valueOr document.toVariant.toMap "data" (QVariant.list [])).toList = []
      ∨ ∃ first rest,
          (QVariantMap.valueOr document.toVariant.toMap "data" (QVariant.list [])).toList
            = first :: rest ∧ first.toMap.lookup "path" = none) :
    WallhavenSource.jsonToImageUrl document documentUrl = some QUrl.empty := by
  unfold WallhavenSource.jsonToImageUrl QList.first
  rcases h with h | ⟨first, rest, h, hp⟩
  · simp [h]
  · have hv : QVariantMap.value first.toMap "path" = QVariant.invalid := by
      simp [QVariantMap.value, QVariantMap.valueOr, hp]
    have hu : QUrl.fromUserInput "" = QUrl.empty := by decide
    simp [h, hv, QVariant.toString, hu]

/-! ## Resolvers: building the request -/

theorem intercalate_go_data (separator acc : String) (xs : List String) :
    (String.intercalate.go acc separator xs).data
      = acc.data ++ (xs.map fun x => separator.data ++ x.data).flatten := by
  induction xs generalizing acc with
  | nil => simp [String.intercalate.go]
  | cons x xs ih => simp [String.intercalate.go, ih, String.data_append, List.append_assoc]

/-- The characters of `join`: the strings in their order, with the separator
between each two neighbours. -/
theorem join_data (xs : List String) (separator : String) :
    (join xs separator).data = List.intercalate separator.data (xs.map String.data) := by
  cases xs with
  | nil => simp [join, String.intercalate, List.intercalate]
  | cons x xs =>
    simp only [join, String.intercalate, intercalate_go_data, List.intercalate, List.map_cons]
    induction xs generalizing x with
    | nil => simp
    | cons y ys ih =>
      have := ih y
      simp [List.intersperse] at this ⊢
      exact this

/-- C7. For every tag list, the value of the query parameter `tags` of the URL
built by BooruSource, and of `q` of the URL built by WallhavenSource, is the
tags joined by `+` in their order (an empty string for no tags, the tag itself
for one); the query text of the URL carries that value as it is, so the
separators appear as the plain character `+`. -/
theorem buildRequestUrl_tags (b : BooruSource) (w : WallhavenSource) :
    QUrlQuery.queryItemValue b.buildRequestUrl.query "tags" = join b.tags_ "+"
      ∧ QUrlQuery.queryItemValue w.buildRequestUrl.query "q" = join w.tags_ "+"
      ∧ QUrlQuery.toString b.buildRequestUrl.query
          = "limit=1&random=true&tags=" ++ join b.tags_ "+"
      ∧ QUrlQuery.toString w.buildRequestUrl.query = "sorting=random&q=" ++ join w.tags_ "+"
      ∧ (join b.tags_ "+").data = List.intercalate ['+'] (b.tags_.map String.data)
      ∧ (join w.tags_ "+").data = List.intercalate ['+'] (w.tags_.map String.data) := by
  refine ⟨?_, ?_, ?_, ?_, join_data _ _, join_data _ _⟩
  · simp [BooruSource.buildRequestUrl, QUrl.setQuery, QUrlQuery.addQueryItem,
      QUrlQuery.queryItemValue, List.lookup]
  · simp [WallhavenSource.buildRequestUrl, QUrl.setQuery, QUrlQuery.addQueryItem,
      QUrlQuery.queryItemValue, List.lookup]
  · simp [BooruSource.buildRequestUrl, QUrl.setQuery, QUrlQuery.addQueryItem,
      QUrlQuery.toString, String.intercalate, String.intercalate.go]
    rfl
  · simp [WallhavenSource.buildRequestUrl, QUrl.setQuery, QUrlQuery.addQueryItem,
      QUrlQuery.toString, String.intercalate, String.intercalate.go]
    rfl

/-! ## The local sources -/

/-- The value `std::uniform_int_distribution<int>(a, b)` draws lies in `[a, b]`. -/
theorem uniform_int_distribution_range (a b : Int) (g : Mt19937) (h : a ≤ b) :
    a ≤ (uniform_int_distribution a b g).1 ∧ (uniform_int_distribution a b g).1 ≤ b := by
  simp only [uniform_int_distribution]
  have hpos : (0 : Int) < b - a + 1 := by omega
  have h1 := Int.emod_nonneg (↑(g.next.1) : Int) (ne_of_gt hpos)
  have h2 := Int.emod_lt_of_pos (↑(g.next.1) : Int) hpos
  constructor <;> omega

/-- C10. FileListSource::fetchFile emits exactly one `nextFile` and nothing else.
With an empty list its argument is `path_`; otherwise the drawn index lies in
`0 .. size-1` and the argument is the element of `files_` at that index. The
members `files_` and `path_` are unchanged. -/
theorem FileListSource.fetchFile_emits_one (s : FileListSource) :
    ∃ fileName, s.fetchFile.2 = [Effect.nextFile fileName]
      ∧ (s.files_ = [] → fileName = s.path_)
      ∧ (s.files_ ≠ [] → ∃ index : Nat,
          (uniform_int_distribution 0 ((s.files_.length : Int) - 1) s.rgen).1 = (index : Int)
            ∧ index < s.files_.length ∧ s.files_.get? index = some fileName
            ∧ fileName ∈ s.files_)
      ∧ s.fetchFile.1.files_ = s.files_ ∧ s.fetchFile.1.path_ = s.path_ := by
  unfold FileListSource.fetchFile
  cases hf : s.files_ with
  | nil => exact ⟨s.path_, by simp [FileSource.fetchFile, hf]⟩
  | cons x xs =>
    have hle : (0 : Int) ≤ ((x :: xs).length : Int) - 1 := by
      simp only [List.length_cons]; omega
    obtain ⟨hlo, hhi⟩ := uniform_int_distribution_range 0 (((x :: xs).length : Int) - 1) s.rgen hle
    generalize hd : uniform_int_distribution 0 (((x :: xs).length : Int) - 1) s.rgen = d at hlo hhi
    obtain ⟨n, hn⟩ := Int.eq_ofNat_of_zero_le hlo
    have hlt : n < (x :: xs).length := by omega
    refine ⟨(x :: xs).get ⟨n, hlt⟩, ?_, by simp, ?_, by simp [hf], by simp⟩
    · simp [hd, QList.value, hn, hlo, List.getD_eq_getElem?_getD, List.getElem?_eq_getElem hlt]
    · intro _
      exact ⟨n, hn, hlt, by simp [List.get?_eq_get hlt], List.get_mem _ _ _⟩

/-- FileListSource: when the file at `filePath` cannot be opened, `setPath` keeps
the list held before the call. -/
theorem FileListSource.setPath_of_open_fails (disk : Disk) (s : FileListSource)
    (filePath : String) (h : disk.openText filePath = none) :
    (s.setPath disk filePath).files = s.files_ ∧ (s.setPath disk filePath).path_ = filePath := by
  simp [FileListSource.setPath, FileListSource.processPath, FileListSource.files, h]

/-- FileListSource: when the file at `filePath` opens, the list after `setPath` is
derived from its text alone. -/
theorem FileListSource.setPath_of_open (disk : Disk) (s t : FileListSource)
    (filePath text : String) (h : disk.openText filePath = some text) :
    (s.setPath disk filePath).files = (t.setPath disk filePath).files := by
  simp [FileListSource.setPath, FileListSource.processPath, FileListSource.files, h]

theorem foldl_append_singleton (xs acc : List String) :
    xs.foldl (fun files i => files ++ [i]) acc = acc ++ xs := by
  induction xs generalizing acc with
  | nil => simp
  | cons x xs ih => simp [ih]

/-- FolderSource: the list after `setPath` is the listing of the directory,
whatever list was held before. -/
theorem FolderSource.setPath_files (disk : Disk) (s : FolderSource) (filePath : String) :
    FileListSource.files (FolderSource.setPath disk s filePath)
      = disk.entryInfoList filePath ["*.jpg", "*.png"] := by
  simp [FolderSource.setPath, FolderSource.processPath, FileListSource.files,
    foldl_append_singleton]

/-- C9, at the failing input. A FileListSource that has read the list file
`/lists/walls.txt` and is then given the path `/missing.txt`, which does not open,
still holds the three files of the first list under the new path, while a fresh
FileListSource given `/missing.txt` holds none: `processPath` returns before
`files_.clear()`. A FolderSource given the same path holds the (empty) listing. -/
theorem FileListSource.setPath_unreadable_keeps_list :
    (mockFileList.setPath mockDisk "/lists/walls.txt").files = ["/a.jpg", "/b.png", "/c.jpg"]
      ∧ ((mockFileList.setPath mockDisk "/lists/walls.txt").setPath mockDisk "/missing.txt").files
          = ["/a.jpg", "/b.png", "/c.jpg"]
      ∧ ((mockFileList.setPath mockDisk "/lists/walls.txt").setPath mockDisk "/missing.txt").path
          = "/missing.txt"
      ∧ (mockFileList.setPath mockDisk "/missing.txt").files = []
      ∧ FileListSource.files (FolderSource.setPath mockDisk
          (FolderSource.setPath mockDisk mockFileList "/pictures") "/missing.txt") = [] := by
  refine ⟨by decide, by decide, by decide, by decide, by decide⟩

/-! ## WebSource: the metadata request -/

/-- WebSource::fetchFile with a work folder and a non-empty built URL hands over
exactly one request: `QNetworkRequest(url)`, which has no header set. -/
theorem WebSource.fetchFile_effects (r : Resolver) (w : WebSource)
    (hw : w.workFolder.isEmpty = false) (hu : (r.buildRequestUrl w).isEmpty = false) :
    w.fetchFile r = [Effect.get ⟨r.buildRequestUrl w, []⟩ Slot.request_json] := by
  simp [WebSource.fetchFile, hw, hu, QNetworkRequest.ofUrl]

/-- C6, at the failing input. For a WallhavenSource with work folder `/tmp/work`
and the tag `cat`, fetchFile hands exactly one request to the network layer. It
targets the built URL, `https://wallhaven.cc/api/v1/search?sorting=random&q=cat`,
and has no User-Agent header: the header is set on the local `request`, and the
reply is requested for a new `QNetworkRequest(url)`. -/
theorem WebSource.fetchFile_request_has_no_user_agent :
    requests (mockWallhaven.fetchFile WallhavenSource.resolver)
        = [⟨WallhavenSource.buildRequestUrl mockWallhaven, []⟩]
      ∧ WallhavenSource.buildRequestUrl mockWallhaven
          = ⟨"https", "wallhaven.cc", "/api/v1/search", [("sorting", "random"), ("q", "cat")], ""⟩
      ∧ (requests (mockWallhaven.fetchFile WallhavenSource.resolver)).map
          (fun request => request.header UserAgentHeader) = [none]
      ∧ (QNetworkRequest.default.setHeader UserAgentHeader userAgent).header UserAgentHeader
          = some userAgent := by
  refine ⟨by decide, by decide, by decide, by decide⟩

/-- C1. Let the decoder give the null document on an empty body. When the
response body is empty, or decodes to the null document, or is exactly `[]` or
the empty-object literal, or decodes to a document for which `jsonToImageUrl`
returns an empty URL, then `request_json` returns, and what it does is exactly:
emit `trayMessage` once, then emit `nextFile(path_)` (FileSource::fetchFile);
no request is issued. -/
theorem WebSource.request_json_no_results (fromJson : QByteArray → QJsonDocument)
    (r : Resolver) (w : WebSource) (response : QByteArray) (requestUrl : QUrl)
    (hnull : fromJson [] = QJsonDocument.null)
    (h : response = [] ∨ (fromJson response).isNull = true ∨ response = bytes "[]"
      ∨ response = bytes "\x7b\x7d"
      ∨ ∃ imageUrl, r.jsonToImageUrl (fromJson response) requestUrl = some imageUrl
          ∧ imageUrl.isEmpty = true) :
    w.request_json fromJson r response requestUrl
      = some [Effect.trayMessage msgNoJson, Effect.nextFile w.path_] := by
  unfold WebSource.request_json
  rcases h with h | h | h | h | ⟨imageUrl, hr, he⟩
  · subst h
    simp [hnull, QJsonDocument.isNull, FileSource.fetchFile]
  · simp [h, FileSource.fetchFile]
  · simp [h, FileSource.fetchFile]
  · simp [h, FileSource.fetchFile]
  · by_cases hempty : ((fromJson response).isNull || (fromJson response).isEmpty
        || response == bytes "[]" || response == bytes "\x7b\x7d") = true
    · simp only [hempty]
      simp [FileSource.fetchFile]
    · simp only [hempty]
      simp [hr, he, FileSource.fetchFile]

/-- C1 at a WallhavenSource whose path is `/home/user/wall.png`, for the body
`[]`: a tray message, then `nextFile("/home/user/wall.png")`. -/
theorem WebSource.request_json_no_results_witness :
    (mockWallhaven.setPath "/home/user/wall.png").request_json mockFromJson
        WallhavenSource.resolver (bytes "[]") (WallhavenSource.buildRequestUrl mockWallhaven)
      = some [Effect.trayMessage msgNoJson, Effect.nextFile "/home/user/wall.png"] :=
  WebSource.request_json_no_results mockFromJson WallhavenSource.resolver
    (mockWallhaven.setPath "/home/user/wall.png") (bytes "[]")
    (WallhavenSource.buildRequestUrl mockWallhaven) rfl (Or.inr (Or.inr (Or.inl rfl)))

/-! ## WebSource: the image request -/

theorem WebSource.storeTempFile_source (os : FsReply) (fs : FileSystem) (w : WebSource)
    (data : QByteArray) (ext : String) :
    (w.storeTempFile os fs data ext).2.1
      = { w with path_ := w.workFolder ++ "/dl/image." ++ ext } := by
  unfold WebSource.storeTempFile
  dsimp only
  cases fs.mkpath os.mkpath (w.workFolder ++ "/" ++ "dl") |>.openTruncate os.openOk
      (w.workFolder ++ "/dl/image." ++ ext) with
  | none => rfl
  | some fs2 =>
    dsimp only
    split <;> rfl

/-- What `request_file` does, whatever `storeTempFile` returns: it emits
`nextFile` once, with the path of the temporary file. -/
theorem WebSource.request_file_effects (os : FsReply) (fs : FileSystem) (w : WebSource)
    (body : QByteArray) (url : QUrl) :
    (w.request_file os fs body url).2.2
        = [Effect.nextFile (w.workFolder ++ "/dl/image." ++ QFileInfo.suffix url.path)]
      ∧ (w.request_file os fs body url).1
        = { w with source_ := url,
                   path_ := w.workFolder ++ "/dl/image." ++ QFileInfo.suffix url.path } := by
  simp [WebSource.request_file, FileSource.fetchFile, WebSource.storeTempFile_source]

/-- C4. When the file opens and the write stores all bytes of the body, then after
`request_file` the file `<workFolder>/dl/image.<ext>`, with `ext` the suffix of
the path of the URL, holds exactly the body, whatever it held before; `source()`
returns the URL; and the effects are exactly one `nextFile` carrying that path. -/
theorem WebSource.request_file_stores (os : FsReply) (fs : FileSystem) (w : WebSource)
    (body : QByteArray) (url : QUrl)
    (hopen : os.openOk = true) (hwrite : os.written = (body.length : Int)) :
    (w.request_file os fs body url).2.1.read
        (w.workFolder ++ "/dl/image." ++ QFileInfo.suffix url.path) = some body
      ∧ (w.request_file os fs body url).1.source = url
      ∧ (w.request_file os fs body url).2.2
        = [Effect.nextFile (w.workFolder ++ "/dl/image." ++ QFileInfo.suffix url.path)] := by
  refine ⟨?_, ?_, (WebSource.request_file_effects os fs w body url).1⟩
  · have hn : ¬ ((body.length : Int) < 0) := by omega
    simp [WebSource.request_file, WebSource.storeTempFile, FileSystem.openTruncate,
      FileSystem.write, hopen, hwrite, hn]
  · rw [(WebSource.request_file_effects os fs w body url).2]
    rfl

/-- C4 for the URL `https://img.example.org/1.jpg`, a ten-byte body and the work
folder `/tmp/work`, on a file system where `/tmp/work/dl/image.jpg` held other
bytes: afterwards it holds the ten bytes. -/
theorem WebSource.request_file_stores_witness :
    (mockWallhaven.request_file ⟨true, true, 10⟩ mockFileSystem mockImageBody
        (QUrl.fromString "https://img.example.org/1.jpg")).2.1.read "/tmp/work/dl/image.jpg"
        = some mockImageBody
      ∧ (mockWallhaven.request_file ⟨true, true, 10⟩ mockFileSystem mockImageBody
        (QUrl.fromString "https://img.example.org/1.jpg")).1.source
        = QUrl.fromString "https://img.example.org/1.jpg"
      ∧ (mockWallhaven.request_file ⟨true, true, 10⟩ mockFileSystem mockImageBody
        (QUrl.fromString "https://img.example.org/1.jpg")).2.2
        = [Effect.nextFile "/tmp/work/dl/image.jpg"] :=
  WebSource.request_file_stores ⟨true, true, 10⟩ mockFileSystem mockWallhaven mockImageBody
    (QUrl.fromString "https://img.example.org/1.jpg") rfl rfl

/-- C5 as stated fails. With a file that cannot be opened, `storeTempFile` returns
false, and `request_file` still emits `nextFile`, carrying the path of the
temporary file. -/
theorem WebSource.request_file_emits_when_store_fails :
    (WebSource.storeTempFile ⟨false, false, -1⟩ mockFileSystem
        { mockWallhaven with source_ := QUrl.fromString "https://img.example.org/1.jpg" }
        mockImageBody (QFileInfo.suffix (QUrl.fromString "https://img.example.org/1.jpg").path)).1
        = false
      ∧ nextFiles (mockWallhaven.request_file ⟨false, false, -1⟩ mockFileSystem mockImageBody
          (QUrl.fromString "https://img.example.org/1.jpg")).2.2 = ["/tmp/work/dl/image.jpg"] := by
  refine ⟨by decide, by decide⟩

/-- C5, amended. Whenever `storeTempFile` returns false in `request_file`, no
`trayMessage` is emitted; exactly one `nextFile` is emitted, carrying the path of
the temporary file, and the file at that path is as it was before the call or
empty. -/
theorem WebSource.request_file_when_store_fails (os : FsReply) (fs : FileSystem)
    (w : WebSource) (body : QByteArray) (url : QUrl)
    (h : (WebSource.storeTempFile os fs { w with source_ := url } body
        (QFileInfo.suffix url.path)).1 = false) :
    trayMessages (w.request_file os fs body url).2.2 = []
      ∧ (w.request_file os fs body url).2.2
        = [Effect.nextFile (w.workFolder ++ "/dl/image." ++ QFileInfo.suffix url.path)]
      ∧ ((w.request_file os fs body url).2.1.read
            (w.workFolder ++ "/dl/image." ++ QFileInfo.suffix url.path)
          = fs.read (w.workFolder ++ "/dl/image." ++ QFileInfo.suffix url.path)
        ∨ (w.request_file os fs body url).2.1.read
            (w.workFolder ++ "/dl/image." ++ QFileInfo.suffix url.path) = some []) := by
  have he := (WebSource.request_file_effects os fs w body url).1
  refine ⟨by rw [he]; rfl, he, ?_⟩
  unfold WebSource.storeTempFile at h
  unfold WebSource.request_file WebSource.storeTempFile
  cases hopen : os.openOk
  · left
    cases hm : os.mkpath <;> simp [FileSystem.openTruncate, FileSystem.mkpath]
  · right
    by_cases hw : os.written < 0
    · simp [FileSystem.openTruncate, FileSystem.write, hw]
    · have hb : ¬ ((body.length : Int) < 0) := by omega
      simp [FileSystem.openTruncate, FileSystem.write, hw, hopen, hb] at h

/-- C5, amended, for a file that cannot be opened: the file keeps its three older
bytes and `nextFile` is emitted with its path. -/
theorem WebSource.request_file_when_store_fails_witness :
    trayMessages (mockWallhaven.request_file ⟨true, false, 0⟩ mockFileSystem mockImageBody
        (QUrl.fromString "https://img.example.org/1.jpg")).2.2 = []
      ∧ (mockWallhaven.request_file ⟨true, false, 0⟩ mockFileSystem mockImageBody
        (QUrl.fromString "https://img.example.org/1.jpg")).2.2
        = [Effect.nextFile "/tmp/work/dl/image.jpg"]
      ∧ ((mockWallhaven.request_file ⟨true, false, 0⟩ mockFileSystem mockImageBody
            (QUrl.fromString "https://img.example.org/1.jpg")).2.1.read "/tmp/work/dl/image.jpg"
          = some [1, 2, 3]
        ∨ (mockWallhaven.request_file ⟨true, false, 0⟩ mockFileSystem mockImageBody
            (QUrl.fromString "https://img.example.org/1.jpg")).2.1.read "/tmp/work/dl/image.jpg"
          = some []) :=
  WebSource.request_file_when_store_fails ⟨true, false, 0⟩ mockFileSystem mockWallhaven
    mockImageBody (QUrl.fromString "https://img.example.org/1.jpg") (by decide)

/-! ## WebSource: the path emitted by the fallback -/

theorem World.perform_source (wd : World) (effects : List Effect) :
    (wd.perform effects).source = wd.source := rfl

/-- Every action other than `setPath` and the completion of an image reply leaves
`path_` as it is. -/
theorem World.step_path (fromJson : QByteArray → QJsonDocument) (r : Resolver)
    (wd wd1 : World) (a : Action) (h : wd.step fromJson r a = some wd1)
    (hs : a.isSetPath = false) (hf : a.isFileFinished = false) :
    wd1.source.path_ = wd.source.path_ := by
  cases a with
  | setPath filePath => simp [Action.isSetPath] at hs
  | setTags tags =>
    simp only [World.step, Option.some.injEq] at h
    subst h; rfl
  | setWorkFolder folder =>
    simp only [World.step, Option.some.injEq] at h
    subst h; rfl
  | fetchFile =>
    simp only [World.step, Option.some.injEq] at h
    subst h; rfl
  | jsonFinished i response =>
    simp only [World.step] at h
    split at h
    · split at h
      · cases h
      · simp only [Option.some.injEq] at h
        subst h; rfl
    · cases h
  | fileFinished i body os => simp [Action.isFileFinished] at hf

theorem World.run_path (fromJson : QByteArray → QJsonDocument) (r : Resolver)
    (later : List Action) (wd wd1 : World) (h : World.run fromJson r wd later = some wd1)
    (hl : ∀ a ∈ later, a.isSetPath = false ∧ a.isFileFinished = false) :
    wd1.source.path_ = wd.source.path_ := by
  induction later generalizing wd with
  | nil =>
    simp only [World.run, Option.some.injEq] at h
    subst h; rfl
  | cons a as ih =>
    simp only [World.run] at h
    split at h
    · cases h
    · rename_i wd2 hstep
      have h2 := ih wd2 h (fun b hb => hl b (List.mem_cons_of_mem _ hb))
      have h1 := World.step_path fromJson r wd wd2 a hstep (hl a (List.mem_cons_self _ _)).1
        (hl a (List.mem_cons_self _ _)).2
      rw [h2, h1]

/-- The only `nextFile` that `request_json` emits carries `path_`. -/
theorem WebSource.request_json_nextFiles (fromJson : QByteArray → QJsonDocument)
    (r : Resolver) (w : WebSource) (response : QByteArray) (requestUrl : QUrl)
    (effects : List Effect) (h : w.request_json fromJson r response requestUrl = some effects) :
    ∀ f ∈ nextFiles effects, f = w.path_ := by
  unfold WebSource.request_json at h
  dsimp only at h
  split at h
  · cases h
  · split at h
    · simp only [Option.some.injEq] at h
      subst h
      simp [nextFiles, FileSource.fetchFile]
    · simp only [Option.some.injEq] at h
      subst h
      simp [nextFiles]

/-- C8 as stated fails. In the session of `mockSession` the path configured
through `setPath` is `/home/user/wall.png` and an image download has completed;
when the next metadata reply is `[]`, the fallback emits `nextFile` with the path
of the temporary file, `/tmp/work/dl/image.jpg`. -/
theorem World.fallback_after_download :
    lastSetPath mockSession = some "/home/user/wall.png"
      ∧ (World.run mockFromJson (BooruSource.resolver "example.org" "/posts.json")
          (World.init BooruSource.init.toWebSource) mockSession).bind
          (fun wd => wd.source.request_json mockFromJson
            (BooruSource.resolver "example.org" "/posts.json") (bytes "[]")
            (QUrl.fromString "https://example.org/posts.json?limit=1&random=true&tags=cat+cute"))
        = some [Effect.trayMessage msgNoJson, Effect.nextFile "/tmp/work/dl/image.jpg"]
      ∧ (World.run mockFromJson (BooruSource.resolver "example.org" "/posts.json")
          (World.init BooruSource.init.toWebSource)
          (mockSession ++ [Action.jsonFinished 0 (bytes "[]")])).map
          (fun wd => nextFiles wd.emitted)
        = some ["/tmp/work/dl/image.jpg", "/tmp/work/dl/image.jpg"] := by
  refine ⟨by decide, by decide, by decide⟩

/-- C8, amended. In every state reached from a call `setPath(filePath)` by
actions among which there is no further `setPath` and no completed image
download, `path_` is `filePath`: the no-results fallback on the body `[]` emits a
tray message and then `nextFile(filePath)`, and any `nextFile` that
`request_json` emits there carries `filePath`. -/
theorem World.fallback_path (fromJson : QByteArray → QJsonDocument) (r : Resolver)
    (wd wd1 : World) (filePath : String) (later : List Action)
    (hrun : World.run fromJson r wd (Action.setPath filePath :: later) = some wd1)
    (hlater : ∀ a ∈ later, a.isSetPath = false ∧ a.isFileFinished = false) :
    wd1.source.path_ = filePath
      ∧ (∀ requestUrl, wd1.source.request_json fromJson r (bytes "[]") requestUrl
          = some [Effect.trayMessage msgNoJson, Effect.nextFile filePath])
      ∧ ∀ response requestUrl effects,
          wd1.source.request_json fromJson r response requestUrl = some effects →
          ∀ f ∈ nextFiles effects, f = filePath := by
  have hp : wd1.source.path_ = filePath := by
    simp only [World.run, World.step] at hrun
    exact World.run_path fromJson r later _ wd1 hrun hlater
  refine ⟨hp, ?_, ?_⟩
  · intro requestUrl
    simp [WebSource.request_json, FileSource.fetchFile, hp]
  · intro response requestUrl effects he
    rw [← hp]
    exact WebSource.request_json_nextFiles fromJson r wd1.source response requestUrl effects he

/-- C8, amended, on the session of `mockShortSession` after
`setPath("/home/user/wall.png")`: the run is possible and the fallback emits
`nextFile("/home/user/wall.png")`. -/
theorem World.fallback_path_witness :
    ∃ wd1, World.run mockFromJson (BooruSource.resolver "example.org" "/posts.json")
        (World.init BooruSource.init.toWebSource)
        (Action.setPath "/home/user/wall.png" :: mockShortSession) = some wd1
      ∧ wd1.source.path_ = "/home/user/wall.png"
      ∧ nextFiles wd1.emitted = ["/home/user/wall.png"]
      ∧ ∀ requestUrl, wd1.source.request_json mockFromJson
          (BooruSource.resolver "example.org" "/posts.json") (bytes "[]") requestUrl
          = some [Effect.trayMessage msgNoJson, Effect.nextFile "/home/user/wall.png"] := by
  have hsome : (World.run mockFromJson (BooruSource.resolver "example.org" "/posts.json")
      (World.init BooruSource.init.toWebSource)
      (Action.setPath "/home/user/wall.png" :: mockShortSession)).isSome = true := by decide
  cases hrun : World.run mockFromJson (BooruSource.resolver "example.org" "/posts.json")
      (World.init BooruSource.init.toWebSource)
      (Action.setPath "/home/user/wall.png" :: mockShortSession) with
  | none =>
    rw [hrun] at hsome
    cases hsome
  | some wd1 =>
    have hlater : ∀ a ∈ mockShortSession, a.isSetPath = false ∧ a.isFileFinished = false := by
      decide
    have h := World.fallback_path mockFromJson (BooruSource.resolver "example.org" "/posts.json")
      (World.init BooruSource.init.toWebSource) wd1 "/home/user/wall.png" mockShortSession
      hrun hlater
    have hn : (World.run mockFromJson (BooruSource.resolver "example.org" "/posts.json")
        (World.init BooruSource.init.toWebSource)
        (Action.setPath "/home/user/wall.png" :: mockShortSession)).map
          (fun wd => nextFiles wd.emitted) = some ["/home/user/wall.png"] := by decide
    rw [hrun] at hn
    exact ⟨wd1, rfl, h.1, by simpa using hn, h.2.1⟩

end Sources
